import Mathlib

/-
  Verification development for the RP_Backend recruitment-platform
  orchestration layer (src/utils/assistantService.js and
  src/utils/openaiServiceValidator.js).

  Shallow embedding conventions:
  * JavaScript strings are Lean `String`s; the character-level work is done
    on `List Char` (`String.data`).
  * The JS regex character class `\s` is modelled by its ASCII subset
    (space, tab, newline, carriage return, vertical tab, form feed); all
    strings appearing in the program and the claims are ASCII.
  * The regexes in the source are of the shape `lit1` `\s*` `lit2` (case
    insensitive) or `lit` `\s*` `(\d+)`.  Because `\s` is disjoint from the
    first character of the trailing literal (and from digits), the greedy
    `\s*` never backtracks and matching is deterministic: skip the maximal
    whitespace run, then match the literal / the maximal digit run.
  * `null`/`undefined` inputs are modelled by `Option`; JS falsiness of a
    string is `none` or the empty string.
  * Exceptions are modelled by `Except Err` with `Err := String` (the
    error message; the HTTP status code attached by `ErrorHandler` is not
    observed by any claim).
-/

namespace RP

/-- ASCII subset of the JS regex class `\s` (and of `String.prototype.trim`). -/
def jsWs (c : Char) : Bool :=
  c == ' ' || c == '\t' || c == '\n' || c == '\r' || c == '\x0b' || c == '\x0c'

/-- Case-insensitive literal matcher: `stripCi pat l` consumes `pat`
(given already lower-cased) from the front of `l`, returning the remainder. -/
def stripCi : List Char → List Char → Option (List Char)
  | [], l => some l
  | _ :: _, [] => none
  | p :: ps, c :: cs => if c.toLower == p then stripCi ps cs else none

/-- Maximal whitespace run removed from the front (the deterministic
reading of a greedy `\s*` followed by a non-whitespace literal). -/
def dropWs (l : List Char) : List Char := l.dropWhile jsWs

/-- Maximal digit run at the front (greedy `\d+` capture). -/
def takeDigits (l : List Char) : List Char := l.takeWhile (fun c => c.isDigit)

/-- Value of a digit string, as `parseInt` computes it on a `\d+` capture.
Modelled with exact `Nat` arithmetic: every use in the source is clamped to
at most 100 immediately afterwards, and floating-point `parseInt` agrees
with exact arithmetic on whether the value is `≤ 100` and on its exact
value when it is. -/
def digitsToNat (l : List Char) : Nat := l.foldl (fun a c => a * 10 + (c.toNat - 48)) 0

/-- The literal part of `/Match Score:\s*(\d+)/i`, lower-cased. -/
def scoreLit : List Char := ("match score:").data

/-- Match of `/Match Score:\s*(\d+)/i` anchored at the head of `l`,
returning the numeric value of the digit capture
(source: assistantService.js, `parseMatchScore`). -/
def matchScoreAt (l : List Char) : Option Nat :=
  match stripCi scoreLit l with
  | none => none
  | some r1 =>
    if (takeDigits (dropWs r1)).isEmpty then none
    else some (digitsToNat (takeDigits (dropWs r1)))

/-- Leftmost match of the score pattern (JS `String.prototype.match` with a
non-global regex finds the first match). -/
def findScore : List Char → Option Nat
  | [] => none
  | c :: cs =>
    match matchScoreAt (c :: cs) with
    | some n => some n
    | none => findScore cs

/-- `parseMatchScore` from assistantService.js:
`analysis.match(/Match Score:\s*(\d+)/i)` then
`Math.min(100, Math.max(0, parseInt(...)))`, defaulting to 0 when there is
no match.  `Math.max 0` is the identity here because the capture `\d+` is a
digit string, whose value is a natural number. -/
def parseMatchScore (analysis : String) : Nat :=
  match findScore analysis.data with
  | some n => min 100 n
  | none => 0

/-- Lower-cased literal of `/2\.\s*CANDIDATE FEEDBACK EMAIL:/i` after `2.`. -/
def sepTail : List Char := ("candidate feedback email:").data

/-- Lower-cased literal of `/1\.\s*INTERNAL RECRUITER ANALYSIS:/i` after `1.`. -/
def hdrTail : List Char := ("internal recruiter analysis:").data

/-- Anchored match of a pattern `d` `\.` `\s*` `tail` (case-insensitive),
returning the remainder after the match. -/
def matchTagAt (d : Char) (tail : List Char) (l : List Char) : Option (List Char) :=
  match stripCi [d, '.'] l with
  | none => none
  | some r1 => stripCi tail (dropWs r1)

/-- Anchored match of the section separator `/2\.\s*CANDIDATE FEEDBACK EMAIL:/i`. -/
def matchSepAt (l : List Char) : Option (List Char) := matchTagAt '2' sepTail l

/-- Anchored match of the scaffold header `/1\.\s*INTERNAL RECRUITER ANALYSIS:/i`. -/
def matchHdrAt (l : List Char) : Option (List Char) := matchTagAt '1' hdrTail l

/-- Leftmost match of an anchored matcher: returns the text before the
match and the remainder after it. -/
def findSplit (mAt : List Char → Option (List Char)) : List Char → Option (List Char × List Char)
  | [] => none
  | c :: cs =>
    match mAt (c :: cs) with
    | some rem => some ([], rem)
    | none =>
      match findSplit mAt cs with
      | some (b, rem) => some (c :: b, rem)
      | none => none

/-- JS `String.prototype.replace` with a non-global regex and empty
replacement: remove the first match, keep everything else. -/
def replaceFirst (mAt : List Char → Option (List Char)) (l : List Char) : List Char :=
  match findSplit mAt l with
  | none => l
  | some (b, rem) => b ++ rem

/-- `String.prototype.trim` (ASCII model). -/
def trimL (l : List Char) : List Char :=
  ((l.dropWhile jsWs).reverse.dropWhile jsWs).reverse

/-- Trim on strings. -/
def strTrim (s : String) : String := ⟨trimL s.data⟩

/-- Strip the first occurrence of the scaffold header
`1. INTERNAL RECRUITER ANALYSIS:` (`.replace(/1\.\s*INTERNAL RECRUITER ANALYSIS:/i, '')`). -/
def stripHdr (l : List Char) : List Char := replaceFirst matchHdrAt l

/-- Result shape of `parseAnalysisResponse`. -/
structure ParsedResponse where
  recruiterFeedback : String
  candidateEmail : String
deriving DecidableEq, Repr

/-- Core of `parseAnalysisResponse` for a truthy input string
(source: assistantService.js lines 587-604).
`analysis.split(/2\.\s*CANDIDATE FEEDBACK EMAIL:/i)` produces exactly two
parts iff the separator matches exactly once: a first match exists and no
further match occurs in the remainder after it.  With two parts the header
is stripped from the first and both are trimmed; otherwise the whole
(header-stripped, trimmed) text is returned with an empty candidate email. -/
def parseCore (a : String) : ParsedResponse :=
  match findSplit matchSepAt a.data with
  | none => ⟨⟨trimL (stripHdr a.data)⟩, ""⟩
  | some (sBefore, sAfter) =>
    match findSplit matchSepAt sAfter with
    | some _ => ⟨⟨trimL (stripHdr a.data)⟩, ""⟩
    | none => ⟨⟨trimL (stripHdr sBefore)⟩, ⟨trimL sAfter⟩⟩

/-- `parseAnalysisResponse` from assistantService.js.  A `null`/`undefined`
argument is `none`; the guard `if (!analysis)` also catches the empty
string.  The surrounding `try`/`catch` of the source is dead in this pure
model (none of the operations throw). -/
def parseAnalysisResponse (analysis : Option String) : ParsedResponse :=
  match analysis with
  | none => ⟨"", ""⟩
  | some a => if a = "" then ⟨"", ""⟩ else parseCore a

/-! ## Configuration validator (src/utils/openaiServiceValidator.js) -/

/-- JS `value.replace(/["']/g, '')`: remove every double or single quote. -/
def stripQuotes (s : String) : String :=
  ⟨s.data.filter (fun c => !(c == '"' || c == '\x27'))⟩

/-- Boolean prefix test (`String.prototype.startsWith`), on character lists. -/
def isPrefixL : List Char → List Char → Bool
  | [], _ => true
  | _ :: _, [] => false
  | p :: ps, c :: cs => p == c && isPrefixL ps cs

/-- `s.startsWith(p)`. -/
def strStarts (s p : String) : Bool := isPrefixL p.data s.data

/-- `s.includes(' ')`. -/
def hasSpace (s : String) : Bool := s.data.any (fun c => c == ' ')

def msgKeyMissing : String := "OPENAI_API_KEY is missing from both environment and config.env"
def msgKeyBadStart : String := "API key should start with either \"sk-\" or \"proj-\""
def msgKeySpaces : String := "API key contains spaces - please remove them"
def msgOrgMissing : String := "OPENAI_ORGANIZATION_ID is missing from both environment and config.env"
def msgOrgBadStart : String := "Organization ID should start with \"org-\""
def msgOrgSpaces : String := "Organization ID contains spaces - please remove them"

/-- Report returned by `validateOpenAIConfig`.  The `config` object of the
source is represented by its two masked credential fields (`source` is a
constant label not observed by any claim). -/
structure ConfigReport where
  isValid : Bool
  issues : List String
  maskedApiKey : Option String
  maskedOrgId : Option String
deriving DecidableEq, Repr

/-- JS truthiness of an optional string (`undefined`/`null`/`''` are falsy). -/
def truthy : Option String → Bool
  | none => false
  | some s => !(s == "")

/-- Issues pushed for the API key (validateOpenAIConfig lines 40-54): if
falsy, the missing-key issue; otherwise quotes are removed first and then
the prefix and embedded-space checks run on the stripped value. -/
def keyIssuesOf (apiKey : Option String) : List String :=
  if !(truthy apiKey) then [msgKeyMissing]
  else
    match apiKey with
    | none => [msgKeyMissing]
    | some k0 =>
      (if !(strStarts (stripQuotes k0) ("sk-")) && !(strStarts (stripQuotes k0) ("proj-"))
       then [msgKeyBadStart] else [])
      ++ (if hasSpace (stripQuotes k0) then [msgKeySpaces] else [])

/-- Issues pushed for the organization id (lines 56-68): same shape, with
the single accepted `org-` prefix. -/
def orgIssuesOf (orgId : Option String) : List String :=
  if !(truthy orgId) then [msgOrgMissing]
  else
    match orgId with
    | none => [msgOrgMissing]
    | some o0 =>
      (if !(strStarts (stripQuotes o0) ("org-")) then [msgOrgBadStart] else [])
      ++ (if hasSpace (stripQuotes o0) then [msgOrgSpaces] else [])

/-- `apiKey.slice(0, 5) + '***' + apiKey.slice(-4)` on the quote-stripped
key, `null` when the (stripped) key is falsy. -/
def maskKey (apiKey : Option String) : Option String :=
  match apiKey with
  | none => none
  | some k0 =>
    if stripQuotes k0 == "" then none
    else some ((stripQuotes k0).take 5 ++ "***" ++ (stripQuotes k0).takeRight 4)

/-- `'org-***' + orgId.slice(-4)` on the quote-stripped org id. -/
def maskOrg (orgId : Option String) : Option String :=
  match orgId with
  | none => none
  | some o0 =>
    if stripQuotes o0 == "" then none
    else some ("org-***" ++ (stripQuotes o0).takeRight 4)

/-- `validateOpenAIConfig` from openaiServiceValidator.js, on
environment-resolved credentials (the config.env file fallback resolves the
two inputs before validation and is not modelled separately; validation of
the resolved values is verbatim).  It never throws: it always returns a
report whose `isValid` is `issues.length === 0`. -/
def validateOpenAIConfig (apiKey orgId : Option String) : ConfigReport :=
  { isValid := (keyIssuesOf apiKey ++ orgIssuesOf orgId).isEmpty
    issues := keyIssuesOf apiKey ++ orgIssuesOf orgId
    maskedApiKey := maskKey apiKey
    maskedOrgId := maskOrg orgId }

/-! ## Effectful service layer (src/utils/assistantService.js)

The external OpenAI client is modelled as an oracle (`ClientBehavior`):
for each kind of network call, a function from the number of previous
calls of that kind to the call's outcome (`Except Err` a value).  The
program state threaded through the computation is the log of client calls
performed, so call counts ("no network calls", "deletion invoked exactly
once") are observable.  `setTimeout` sleeps (retry backoff, the 1-second
poll interval) have no observable effect in the claims and are not
recorded. -/

/-- One client call, as recorded in the call log.  The body text passed to
`messages.create` is not recorded (no behavior or claim observes it).
`opCall` records an invocation of an arbitrary operation wrapped by
`retry`, for stating the retry-bound claims. -/
inductive CallEv
  | createThread
  | createMessage (threadId : String)
  | createRun (threadId : String)
  | retrieveRun (threadId runId : String)
  | listMessages (threadId : String)
  | deleteThread (threadId : String)
  | opCall
deriving DecidableEq, Repr

abbrev Err := String
abbrev Log := List CallEv

/-- State-and-exception monad over the call log: a step returns an
`Except` outcome and the extended log. -/
abbrev M (α : Type) := Log → Except Err α × Log

def mPure {α : Type} (a : α) : M α := fun l => (Except.ok a, l)

def mBind {α β : Type} (x : M α) (f : α → M β) : M β := fun l =>
  match x l with
  | (Except.ok a, l1) => f a l1
  | (Except.error e, l1) => (Except.error e, l1)

/-- Remote run object, as far as the poller reads it (`run.status`,
`run.last_error?.message`). -/
structure RunInfo where
  status : String
  lastErrorMsg : Option String
deriving DecidableEq, Repr

/-- Behavior of the external assistant client: the outcome of the n-th
invocation of each operation.  `createThread`/`createRun` yield the handle
id, `listMessages` yields the list of message text values
(`messages.data[i].content[0].text.value`). -/
structure ClientBehavior where
  createThread : Nat → Except Err String
  createMessage : Nat → Except Err Unit
  createRun : Nat → Except Err String
  retrieveRun : Nat → Except Err RunInfo
  listMessages : Nat → Except Err (List String)

def isCreateThreadEv : CallEv → Bool
  | CallEv.createThread => true
  | _ => false

def isCreateMessageEv : CallEv → Bool
  | CallEv.createMessage _ => true
  | _ => false

def isCreateRunEv : CallEv → Bool
  | CallEv.createRun _ => true
  | _ => false

def isRetrieveEv : CallEv → Bool
  | CallEv.retrieveRun _ _ => true
  | _ => false

def isListEv : CallEv → Bool
  | CallEv.listMessages _ => true
  | _ => false

def isDelEv : CallEv → Bool
  | CallEv.deleteThread _ => true
  | _ => false

def isOpEv : CallEv → Bool
  | CallEv.opCall => true
  | _ => false

def countEv (p : CallEv → Bool) (l : Log) : Nat := (l.filter p).length

def callCreateThread (cb : ClientBehavior) : M String := fun l =>
  (cb.createThread (countEv isCreateThreadEv l), l ++ [CallEv.createThread])

def callCreateMessage (cb : ClientBehavior) (threadId _content : String) : M Unit := fun l =>
  (cb.createMessage (countEv isCreateMessageEv l), l ++ [CallEv.createMessage threadId])

def callCreateRun (cb : ClientBehavior) (threadId : String) : M String := fun l =>
  (cb.createRun (countEv isCreateRunEv l), l ++ [CallEv.createRun threadId])

def callRetrieveRun (cb : ClientBehavior) (threadId runId : String) : M RunInfo := fun l =>
  (cb.retrieveRun (countEv isRetrieveEv l), l ++ [CallEv.retrieveRun threadId runId])

def callListMessages (cb : ClientBehavior) (threadId : String) : M (List String) := fun l =>
  (cb.listMessages (countEv isListEv l), l ++ [CallEv.listMessages threadId])

/-- `retry` from assistantService.js (lines 23-33): up to `maxRetries`
attempts; a successful attempt returns immediately; a failed attempt is
retried after a backoff sleep, except the last one, whose error is rethrown
unmodified.  The source, invoked with `maxRetries = 0`, would run the loop
zero times and resolve to `undefined`; it is never invoked that way (the
only count used is 3), and the model folds that dead case into a single
attempt. -/
def retry {α : Type} (op : M α) : Nat → M α
  | 0 => op
  | 1 => op
  | n + 2 => fun l =>
    match op l with
    | (Except.ok v, l1) => (Except.ok v, l1)
    | (Except.error _, l1) => retry op (n + 1) l1

def timeoutMsg : String := "Assistant analysis timed out"

/-- Message of the `ErrorHandler` raised on a terminal-failure status:
``Assistant run ${status}: ${run.last_error?.message || 'Unknown error'}``. -/
def runFailureMsg (run : RunInfo) : String :=
  "Assistant run " ++ run.status ++ ": " ++
    (match run.lastErrorMsg with
     | some m => if m == "" then "Unknown error" else m
     | none => "Unknown error")

/-- `waitForCompletion` from assistantService.js (lines 102-141): loop up
to `maxAttempts` times; each iteration retrieves the run through `retry`;
`completed` returns the run; `failed`/`cancelled`/`expired` throw with the
remote-reported reason; `queued`/`in_progress`/`requires_action` sleep one
interval and poll again; an unknown status throws.  The inner `try`/`catch`
logs and rethrows, so errors propagate unchanged.  Exhausting the loop
throws the timeout error. -/
def waitForCompletion (cb : ClientBehavior) (threadId runId : String) : Nat → M RunInfo
  | 0 => fun l => (Except.error timeoutMsg, l)
  | n + 1 => fun l =>
    match retry (callRetrieveRun cb threadId runId) 3 l with
    | (Except.error e, l1) => (Except.error e, l1)
    | (Except.ok run, l1) =>
      if run.status == "completed" then (Except.ok run, l1)
      else if run.status == "failed" || run.status == "cancelled" || run.status == "expired" then
        (Except.error (runFailureMsg run), l1)
      else if run.status == "queued" || run.status == "in_progress" || run.status == "requires_action" then
        waitForCompletion cb threadId runId n l1
      else
        (Except.error ("Unknown run status: " ++ run.status), l1)

/-! ## Analysis orchestrator (`analyzeApplication`, second revision of
assistantService.js: fallback mode, lines 294-525) -/

/-- Result shape of `analyzeApplication`.  The success branch of the
source also attaches a `validation` report (`validateAnalysisResponse`);
that field is purely observational, is absent from the fallback and
failure results, and is not referred to by any claim, so it is omitted
from the model. -/
structure AnalysisResult where
  success : Bool
  analysis : String
  score : Nat
  error : Option String
deriving DecidableEq, Repr

/-- `formatAnalysisPrompt` (lines 527-574), the message body submitted to
the conversation. -/
def formatAnalysisPrompt (jobDescription cvText : String) : String :=
  "Analyze this job application as a recruitment specialist and provide two types of feedback:\n  \n1. INTERNAL RECRUITER ANALYSIS:\nJob Description:\n"
  ++ jobDescription
  ++ "\n\nCV/Application Content:\n"
  ++ cvText
  ++ "\n\nPlease provide concise, constructive feedback using exactly this format:\n\nMatch Score: [0-100]\n\nInitial Feedback:\n[2-3 sentences of personalized feedback focusing on key alignments or gaps]\n\nStrengths Identified:\n- [Top 2-3 relevant qualifications that align well with the role]\n- [Include specific examples from the CV where possible]\n\nAreas for Enhancement:\n- [2-3 specific qualifications or experiences that could be strengthened]\n- [Focus on constructive, actionable gaps]\n\nRecommendations:\n[One clear, practical suggestion for improving the application]\n\n2. CANDIDATE FEEDBACK EMAIL:\nNow, draft a professional email response to the candidate using this structure:\n\nSubject: Application Status Update - [Job Title] Position\n\nDear [Candidate Name],\n\n[Opening - Thank them for their application and express genuine interest]\n\n[Body Paragraph 1 - Highlight 2-3 specific strengths from their application]\n\n[Body Paragraph 2 - Constructively address any gaps or areas for improvement]\n\n[Body Paragraph 3 - Next steps or recommendations]\n\nBest regards,\n[Company] Recruitment Team\n\nNote: Keep both analyses professional, constructive, and actionable. Focus on specific qualifications and experiences rather than general statements."

/-- The static fallback analysis text returned when the configuration is
invalid (lines 346-378), verbatim. -/
def fallbackAnalysis : String :=
  "\n1. INTERNAL RECRUITER ANALYSIS:\n\nMatch Score: 50\n\nInitial Feedback:\nApplication received and pending manual review by our recruitment team.\n\nStrengths Identified:\n- Pending manual review\n- Will be evaluated by recruitment team\n\nAreas for Enhancement:\n- Pending detailed review\n- Will provide specific feedback after evaluation\n\nRecommendations:\nAwait feedback from our recruitment team\n\n2. CANDIDATE FEEDBACK EMAIL:\n\nSubject: Application Status Update - Position\n\nDear Candidate,\n\nThank you for your application. We have received your submission and it is currently under review by our recruitment team.\n\nWe will carefully evaluate your qualifications and experience against the position requirements and get back to you with detailed feedback.\n\nPlease allow us some time to complete our review process. We appreciate your patience.\n\nBest regards,\nRecruitment Team"

/-- The fallback result object (lines 344-380): `success: true`, the
static analysis, `score: 50`. -/
def fallbackResult : AnalysisResult :=
  { success := true, analysis := fallbackAnalysis, score := 50, error := none }

/-- The apology text substituted into the degraded result on the error
path (line 441). -/
def apologyMsg : String :=
  "We apologize, but we couldn\x27t complete the analysis at this moment. Your application has been submitted and will be reviewed by the hiring team."

/-- The degraded result produced by the `catch` block of
`analyzeApplication` (lines 432-443). -/
def failureResult (e : Err) : AnalysisResult :=
  { success := false, analysis := apologyMsg, score := 0, error := some e }

/-- `messages.data[0].content[0].text.value` (line 411): reading the first
message; throws a `TypeError` when the message list is empty. -/
def extractFirstText (msgs : List String) : M String := fun l =>
  match msgs with
  | [] => (Except.error ("TypeError: cannot read properties of undefined"), l)
  | m :: _ => (Except.ok m, l)

/-- The success result object (lines 426-431); the observational
`validation` field is omitted (see `AnalysisResult`). -/
def mkSuccessResult (analysis : String) : AnalysisResult :=
  { success := true, analysis := analysis, score := parseMatchScore analysis, error := none }

/-- The sequence of steps of the `try` block after the conversation
context exists (lines 392-431): post the prompt, create the run, poll it
to completion, list the messages, read the first one, build the success
result. -/
def afterThread (cb : ClientBehavior) (cvText jobDescription threadId : String) : M AnalysisResult :=
  mBind (retry (callCreateMessage cb threadId (formatAnalysisPrompt jobDescription cvText)) 3) (fun _ =>
  mBind (retry (callCreateRun cb threadId) 3) (fun runId =>
  mBind (waitForCompletion cb threadId runId 60) (fun _ =>
  mBind (retry (callListMessages cb threadId) 3) (fun msgs =>
  mBind (extractFirstText msgs) (fun analysis =>
  mPure (mkSuccessResult analysis))))))

/-- The whole `try` block (lines 385-431).  `thread` starts as `null` and
is assigned once the first `retry` succeeds; the returned `Option String`
is its value when the block exits, read by `catch` and `finally`. -/
def analyzeTry (cb : ClientBehavior) (cvText jobDescription : String) (l : Log) :
    Except Err AnalysisResult × Option String × Log :=
  match retry (callCreateThread cb) 3 l with
  | (Except.error e, l1) => (Except.error e, none, l1)
  | (Except.ok tid, l1) =>
    match afterThread cb cvText jobDescription tid l1 with
    | (r, l2) => (r, some tid, l2)

/-- `cleanupThread` (lines 513-525): no-op when the configuration is
invalid or the thread handle is falsy; otherwise delete the thread,
logging — and swallowing — any deletion error. -/
def cleanupThread (isConfigValid : Bool) (del : Nat → Except Err Unit)
    (thread : Option String) (l : Log) : Log :=
  if !isConfigValid then l
  else
    match thread with
    | none => l
    | some tid =>
      if tid == "" then l
      else
        match del (countEv isDelEv l) with
        | Except.ok _ => l ++ [CallEv.deleteThread tid]
        | Except.error _ => l ++ [CallEv.deleteThread tid]

/-- The `catch` block of `analyzeApplication`: a thrown error is logged
and converted into the degraded result; a normal completion passes
through. -/
def catchToResult : Except Err AnalysisResult → AnalysisResult
  | Except.ok v => v
  | Except.error e => failureResult e

/-- `analyzeApplication` (lines 342-447).  When the service is in
fallback mode the static fallback result is returned with no client
interaction; otherwise the `try` block runs, the `catch` block converts
any error into the degraded result, and the `finally` block deletes the
conversation context.  The client's deletion behavior `del` is passed
separately from `cb`: only `cleanupThread` consults it. -/
def analyzeApplication (isConfigValid : Bool) (cb : ClientBehavior)
    (del : Nat → Except Err Unit) (cvText jobDescription : String) : M AnalysisResult := fun l =>
  if !isConfigValid then (Except.ok fallbackResult, l)
  else
    match analyzeTry cb cvText jobDescription l with
    | (tr, threadOpt, l1) =>
      (Except.ok (catchToResult tr), cleanupThread isConfigValid del threadOpt l1)

/-- `initialize` (lines 299-321), reduced to the configuration-validity
flag it establishes: the service leaves fallback mode only when
`validateOpenAIConfig` reports valid and the assistant id is truthy. -/
def initConfigValid (apiKey orgId assistantId : Option String) : Bool :=
  (validateOpenAIConfig apiKey orgId).isValid && truthy assistantId

/-! ## Basic lemmas about the effect machinery -/

theorem countEv_append (p : CallEv → Bool) (l1 l2 : Log) :
    countEv p (l1 ++ l2) = countEv p l1 + countEv p l2 := by
  simp [countEv, List.filter_append]

theorem countEv_nil (p : CallEv → Bool) : countEv p [] = 0 := rfl

theorem retry_of_ok {α : Type} (op : M α) (v : α) (l l1 : Log)
    (h : op l = (Except.ok v, l1)) : ∀ n, retry op n l = (Except.ok v, l1) := by
  intro n
  match n with
  | 0 => simpa [retry] using h
  | 1 => simpa [retry] using h
  | m + 2 => simp only [retry, h]

theorem retry_three {α : Type} (op : M α) (l : Log) :
    retry op 3 l =
      (match op l with
       | (Except.ok v, l1) => (Except.ok v, l1)
       | (Except.error _, l1) =>
         match op l1 with
         | (Except.ok v, l2) => (Except.ok v, l2)
         | (Except.error _, l2) => op l2) := rfl

/-- An arbitrary operation wrapped by `retry`, represented by the outcome
`b n` of its n-th invocation; each invocation is recorded as `opCall`. -/
def opOf {α : Type} (b : Nat → Except Err α) : M α := fun l =>
  (b (countEv isOpEv l), l ++ [CallEv.opCall])

/-! ## Claim theorems -/

/-- Claim C10: `parseAnalysisResponse` applied to a `null`/`undefined`
(absent) raw input — and likewise to the falsy empty string — does not
throw and returns the pair of empty strings, so the parser is total at the
public interface. -/
theorem parseAnalysisResponse_null_safe :
    parseAnalysisResponse none = ⟨"", ""⟩ ∧ parseAnalysisResponse (some ("")) = ⟨"", ""⟩ :=
  ⟨rfl, rfl⟩

/-- Claim C4: for an operation that throws on every invocation,
`retry(op, 3)` invokes the operation exactly 3 times (three `opCall`
events are appended to the log) and rethrows the outcome of the 3rd
attempt — by hypothesis, its error — unmodified; for an operation that
throws on its 1st invocation and returns a value on its 2nd, `retry`
invokes it exactly 2 times and returns that value. -/
theorem retry_bound {α : Type} (b : Nat → Except Err α) (l : Log) :
    ((∀ n, ∃ e, b n = Except.error e) →
      retry (opOf b) 3 l =
        (b (countEv isOpEv l + 2), l ++ [CallEv.opCall, CallEv.opCall, CallEv.opCall]))
    ∧ (∀ e v, b (countEv isOpEv l) = Except.error e →
        b (countEv isOpEv l + 1) = Except.ok v →
        retry (opOf b) 3 l = (Except.ok v, l ++ [CallEv.opCall, CallEv.opCall])) := by
  have c1 : countEv isOpEv (l ++ [CallEv.opCall]) = countEv isOpEv l + 1 := by
    rw [countEv_append]; rfl
  have c2 : countEv isOpEv (l ++ [CallEv.opCall, CallEv.opCall]) = countEv isOpEv l + 2 := by
    rw [countEv_append]; rfl
  constructor
  · intro h
    obtain ⟨e1, h1⟩ := h (countEv isOpEv l)
    obtain ⟨e2, h2⟩ := h (countEv isOpEv l + 1)
    rw [retry_three]
    simp only [opOf, h1, c1, h2, c2, List.append_assoc, List.singleton_append]
    simp
  · intro e v h1 h2
    rw [retry_three]
    simp only [opOf, h1, c1, h2, List.append_assoc, List.singleton_append]

/-- Witness for C4: with an operation that fails on attempts 0 and 1 with
distinct errors and would fail on attempt 2 with yet another, `retry _ 3`
performs 3 calls and surfaces exactly the 3rd error; with an operation
failing once and then succeeding with 42, it performs 2 calls and returns
42. -/
theorem retry_bound_witness :
    retry (opOf (fun n => (Except.error (Nat.repr n) : Except Err Nat))) 3 [] =
      (Except.error ("2"), [CallEv.opCall, CallEv.opCall, CallEv.opCall])
    ∧ retry (opOf (fun n => if n = 0 then Except.error ("boom") else Except.ok 42)) 3 [] =
      (Except.ok 42, [CallEv.opCall, CallEv.opCall]) := by
  constructor
  · have h := (retry_bound (fun n => (Except.error (Nat.repr n) : Except Err Nat)) []).1
      (fun n => ⟨Nat.repr n, rfl⟩)
    simpa using h
  · have h := (retry_bound (fun n => if n = 0 then Except.error ("boom") else Except.ok (42 : Nat)) []).2
      ("boom") 42 (by simp [countEv_nil]) (by simp [countEv_nil])
    simpa using h

theorem callRetrieveRun_eq (cb : ClientBehavior) (t r : String) (l : Log) :
    callRetrieveRun cb t r l =
      (cb.retrieveRun (countEv isRetrieveEv l), l ++ [CallEv.retrieveRun t r]) := rfl

theorem waitForCompletion_succ (cb : ClientBehavior) (t r : String) (n : Nat) (l : Log) :
    waitForCompletion cb t r (n + 1) l =
      (match retry (callRetrieveRun cb t r) 3 l with
       | (Except.error e, l1) => (Except.error e, l1)
       | (Except.ok run, l1) =>
         if run.status == "completed" then (Except.ok run, l1)
         else if run.status == "failed" || run.status == "cancelled" || run.status == "expired" then
           (Except.error (runFailureMsg run), l1)
         else if run.status == "queued" || run.status == "in_progress" || run.status == "requires_action" then
           waitForCompletion cb t r n l1
         else
           (Except.error ("Unknown run status: " ++ run.status), l1)) := rfl

/-- A fake client whose status checks always report `st` and which fails
every other operation. -/
def cbStatus (st : String) : ClientBehavior :=
  { createThread := fun _ => Except.error ("transport")
    createMessage := fun _ => Except.error ("transport")
    createRun := fun _ => Except.error ("transport")
    retrieveRun := fun _ => Except.ok { status := st, lastErrorMsg := none }
    listMessages := fun _ => Except.error ("transport") }

/-- Counterexample to claim C5: the claim states that only `queued` and
`in_progress` are polled again and that every other non-terminal status
raises an error at its first observation.  But a status source that always
reports `requires_action` is polled again: with `maxAttempts = 2` the code
performs two status checks and then raises the timeout error, instead of
raising an unknown-status error after the first check. -/
theorem waitForCompletion_requires_action_counterexample :
    waitForCompletion (cbStatus ("requires_action")) ("t") ("r") 2 [] =
      (Except.error timeoutMsg,
       [CallEv.retrieveRun ("t") ("r"), CallEv.retrieveRun ("t") ("r")]) := rfl

/-- Claim C5, amended: the non-terminal (polled-again) statuses are
`queued`, `in_progress` and also `requires_action`.  With that change the
claimed algorithm holds: a `completed` status returns the job after one
check; a `failed`/`cancelled`/`expired` status raises an error carrying
the remote-reported reason after one check; a status source that never
reports a terminal state gives exactly `maxAttempts` status checks
followed by the timeout error; any status outside the seven recognized
ones raises an unknown-status error at its first observation. -/
theorem waitForCompletion_spec (cb : ClientBehavior) (t r : String) (l : Log) (n : Nat) :
    (∀ run, cb.retrieveRun (countEv isRetrieveEv l) = Except.ok run →
      run.status = "completed" →
      waitForCompletion cb t r (n + 1) l = (Except.ok run, l ++ [CallEv.retrieveRun t r]))
    ∧ (∀ run, cb.retrieveRun (countEv isRetrieveEv l) = Except.ok run →
        (run.status = "failed" ∨ run.status = "cancelled" ∨ run.status = "expired") →
        waitForCompletion cb t r (n + 1) l =
          (Except.error (runFailureMsg run), l ++ [CallEv.retrieveRun t r]))
    ∧ ((∀ k, ∃ run, cb.retrieveRun k = Except.ok run ∧
          (run.status = "queued" ∨ run.status = "in_progress" ∨ run.status = "requires_action")) →
        waitForCompletion cb t r n l =
          (Except.error timeoutMsg, l ++ List.replicate n (CallEv.retrieveRun t r)))
    ∧ (∀ run, cb.retrieveRun (countEv isRetrieveEv l) = Except.ok run →
        run.status ∉ (["completed", "failed", "cancelled", "expired",
                       "queued", "in_progress", "requires_action"] : List String) →
        waitForCompletion cb t r (n + 1) l =
          (Except.error ("Unknown run status: " ++ run.status), l ++ [CallEv.retrieveRun t r])) := by
  have hret : ∀ (l' : Log) run, cb.retrieveRun (countEv isRetrieveEv l') = Except.ok run →
      retry (callRetrieveRun cb t r) 3 l' = (Except.ok run, l' ++ [CallEv.retrieveRun t r]) := by
    intro l' run h
    exact retry_of_ok _ _ _ _ (by rw [callRetrieveRun_eq, h]) 3
  refine ⟨?_, ?_, ?_, ?_⟩
  · intro run h hst
    rw [waitForCompletion_succ, hret l run h]
    simp [hst]
  · intro run h hst
    rw [waitForCompletion_succ, hret l run h]
    rcases hst with h1 | h1 | h1 <;> simp [h1, runFailureMsg]
  · intro h
    clear hret
    induction n generalizing l with
    | zero => simp [waitForCompletion]
    | succ m ih =>
      obtain ⟨run, hok, hst⟩ := h (countEv isRetrieveEv l)
      have hr : retry (callRetrieveRun cb t r) 3 l = (Except.ok run, l ++ [CallEv.retrieveRun t r]) :=
        retry_of_ok _ _ _ _ (by rw [callRetrieveRun_eq, hok]) 3
      rw [waitForCompletion_succ, hr]
      rcases hst with h1 | h1 | h1 <;>
        simp [h1, ih (l ++ [CallEv.retrieveRun t r]), List.replicate_succ, List.append_assoc]
  · intro run h hst
    rw [waitForCompletion_succ, hret l run h]
    simp only [List.mem_cons, List.mem_singleton, not_or] at hst
    obtain ⟨w1, w2, w3, w4, w5, w6, w7, _⟩ := hst
    simp [w1, w2, w3, w4, w5, w6, w7]

/-- Witness for C5's amended theorem: concrete fake status sources
exercising each branch — immediate success, remote-reported failure,
five checks then timeout, and unknown status. -/
theorem waitForCompletion_spec_witness :
    waitForCompletion (cbStatus ("completed")) ("t") ("r") 1 [] =
      (Except.ok { status := "completed", lastErrorMsg := none },
       [CallEv.retrieveRun ("t") ("r")])
    ∧ waitForCompletion (cbStatus ("failed")) ("t") ("r") 1 [] =
      (Except.error ("Assistant run failed: Unknown error"), [CallEv.retrieveRun ("t") ("r")])
    ∧ waitForCompletion (cbStatus ("queued")) ("t") ("r") 5 [] =
      (Except.error timeoutMsg, List.replicate 5 (CallEv.retrieveRun ("t") ("r")))
    ∧ waitForCompletion (cbStatus ("banana")) ("t") ("r") 1 [] =
      (Except.error ("Unknown run status: banana"), [CallEv.retrieveRun ("t") ("r")]) := by
  refine ⟨?_, ?_, ?_, ?_⟩
  · have h := (waitForCompletion_spec (cbStatus ("completed")) ("t") ("r") [] 0).1
      { status := "completed", lastErrorMsg := none } rfl rfl
    simpa using h
  · have h := (waitForCompletion_spec (cbStatus ("failed")) ("t") ("r") [] 0).2.1
      { status := "failed", lastErrorMsg := none } rfl (Or.inl rfl)
    simpa [runFailureMsg] using h
  · have h := (waitForCompletion_spec (cbStatus ("queued")) ("t") ("r") [] 5).2.2.1
      (fun k => ⟨{ status := "queued", lastErrorMsg := none }, rfl, Or.inl rfl⟩)
    simpa using h
  · have h := (waitForCompletion_spec (cbStatus ("banana")) ("t") ("r") [] 0).2.2.2
      { status := "banana", lastErrorMsg := none } rfl (by decide)
    simpa using h

set_option maxRecDepth 400000 in
/-- Claim C2: with an invalid configuration — here, a missing organization
id — `analyzeApplication` returns the fallback result: `success = true`,
score 50, an analysis text whose parsed recruiter section and candidate
email are both non-empty, and the call log is unchanged (no client
operation is invoked). -/
theorem analyzeApplication_invalid_config_fallback (k aid : Option String)
    (cb : ClientBehavior) (del : Nat → Except Err Unit) (cv jd : String) (l : Log) :
    initConfigValid k none aid = false
    ∧ analyzeApplication (initConfigValid k none aid) cb del cv jd l = (Except.ok fallbackResult, l)
    ∧ fallbackResult.success = true
    ∧ fallbackResult.score = 50
    ∧ (parseAnalysisResponse (some fallbackResult.analysis)).recruiterFeedback ≠ ""
    ∧ (parseAnalysisResponse (some fallbackResult.analysis)).candidateEmail ≠ "" := by
  have hfalse : initConfigValid k none aid = false := by
    simp [initConfigValid, validateOpenAIConfig, orgIssuesOf, truthy]
  refine ⟨hfalse, ?_, rfl, rfl, ?_, ?_⟩
  · rw [hfalse]
    rfl
  · decide
  · decide

theorem mBind_ok {α β : Type} {x : M α} {f : α → M β} {l l' : Log} {b : β}
    (h : mBind x f l = (Except.ok b, l')) :
    ∃ a l1, x l = (Except.ok a, l1) ∧ f a l1 = (Except.ok b, l') := by
  unfold mBind at h
  rcases hx : x l with ⟨r, l1⟩
  rw [hx] at h
  cases r with
  | ok a => exact ⟨a, l1, rfl, h⟩
  | error e => simp at h

theorem afterThread_ok_success {cb : ClientBehavior} {cv jd tid : String} {l l' : Log}
    {v : AnalysisResult} (h : afterThread cb cv jd tid l = (Except.ok v, l')) :
    v.success = true := by
  unfold afterThread at h
  obtain ⟨_, l1, _, h⟩ := mBind_ok h
  obtain ⟨_, l2, _, h⟩ := mBind_ok h
  obtain ⟨_, l3, _, h⟩ := mBind_ok h
  obtain ⟨_, l4, _, h⟩ := mBind_ok h
  obtain ⟨a, l5, _, h⟩ := mBind_ok h
  unfold mPure at h
  cases h
  rfl

theorem analyzeTry_ok_success {cb : ClientBehavior} {cv jd : String} {l : Log}
    {topt : Option String} {l' : Log} {v : AnalysisResult}
    (h : analyzeTry cb cv jd l = (Except.ok v, topt, l')) : v.success = true := by
  unfold analyzeTry at h
  rcases hr : retry (callCreateThread cb) 3 l with ⟨r, l1⟩
  rw [hr] at h
  cases r with
  | error e => simp at h
  | ok tid =>
    dsimp only at h
    rcases ha : afterThread cb cv jd tid l1 with ⟨r2, l2⟩
    rw [ha] at h
    dsimp only at h
    simp only [Prod.mk.injEq] at h
    obtain ⟨h1, _, _⟩ := h
    rw [h1] at ha
    exact afterThread_ok_success ha

/-- Claim C1, amended: for every client behavior (including every call
throwing) `analyzeApplication` returns an `AnalysisResult` and never
raises; whenever the returned result has `success = false` its analysis is
the non-empty apology message — so the recruiter-facing artifact parsed
out of it is non-empty — but the candidate email parsed out of it is the
EMPTY string: the failure path substitutes a fallback recruiter message
only, not a candidate email. -/
theorem analyzeApplication_total (cfg : Bool) (cb : ClientBehavior)
    (del : Nat → Except Err Unit) (cv jd : String) (l : Log) :
    (∃ res lres, analyzeApplication cfg cb del cv jd l = (Except.ok res, lres))
    ∧ (∀ res lres, analyzeApplication cfg cb del cv jd l = (Except.ok res, lres) →
        res.success = false →
        res.analysis = apologyMsg
        ∧ res.analysis ≠ ""
        ∧ (parseAnalysisResponse (some res.analysis)).recruiterFeedback ≠ ""
        ∧ (parseAnalysisResponse (some res.analysis)).candidateEmail = "") := by
  have happ : parseAnalysisResponse (some apologyMsg) = ⟨apologyMsg, ""⟩ := rfl
  cases cfg with
  | false =>
    refine ⟨⟨fallbackResult, l, rfl⟩, ?_⟩
    intro res lres h hfail
    unfold analyzeApplication at h
    simp at h
    rw [← h.1] at hfail
    simp [fallbackResult] at hfail
  | true =>
    rcases ht : analyzeTry cb cv jd l with ⟨tr, topt, l1⟩
    have hform : analyzeApplication true cb del cv jd l =
        (Except.ok (catchToResult tr), cleanupThread true del topt l1) := by
      unfold analyzeApplication
      rw [ht]
      rfl
    refine ⟨⟨catchToResult tr, cleanupThread true del topt l1, hform⟩, ?_⟩
    intro res lres h hfail
    rw [hform] at h
    have hres : res = catchToResult tr := by
      cases h
      rfl
    cases tr with
    | ok v =>
      rw [hres] at hfail
      dsimp only [catchToResult] at hfail
      simp [analyzeTry_ok_success ht] at hfail
    | error e =>
      subst hres
      dsimp only [catchToResult, failureResult]
      refine ⟨rfl, by decide, ?_, ?_⟩
      · rw [show parseAnalysisResponse (some apologyMsg) = ⟨apologyMsg, ""⟩ from rfl]
        decide
      · rw [show parseAnalysisResponse (some apologyMsg) = ⟨apologyMsg, ""⟩ from rfl]

/-- Witness for C1's amended theorem: a client whose calls all fail with a
transport error yields a `success = false` result carrying the non-empty
apology message and an empty parsed candidate email. -/
theorem analyzeApplication_total_witness :
    (failureResult ("transport")).analysis = apologyMsg
    ∧ (parseAnalysisResponse (some (failureResult ("transport")).analysis)).recruiterFeedback ≠ ""
    ∧ (parseAnalysisResponse (some (failureResult ("transport")).analysis)).candidateEmail = "" := by
  have h := (analyzeApplication_total true (cbStatus ("queued")) (fun _ => Except.ok ())
      ("cv") ("jd") []).2
    (failureResult ("transport"))
    [CallEv.createThread, CallEv.createThread, CallEv.createThread] rfl rfl
  exact ⟨h.1, h.2.2.1, h.2.2.2⟩

/-- Counterexample to claim C1 as stated: with a client whose calls all
throw, the returned result has `success = false` and a non-empty
recruiter analysis, but the candidate email that can be parsed out of it
is the empty string — the claimed invariant that `success = false` never
leaves the candidate email empty does not hold. -/
theorem analyzeApplication_failure_email_counterexample :
    (analyzeApplication true (cbStatus ("queued")) (fun _ => Except.ok ())
        ("cv") ("jd") []).1 = Except.ok (failureResult ("transport"))
    ∧ (failureResult ("transport")).success = false
    ∧ (parseAnalysisResponse (some (failureResult ("transport")).analysis)).candidateEmail = "" :=
  ⟨rfl, rfl, rfl⟩

/-! ## Deletion-count preservation: no step of the `try` body performs a
`deleteThread` call -/

/-- A computation preserves the number of `deleteThread` calls in the log. -/
def PreservesDel {α : Type} (m : M α) : Prop :=
  ∀ l, countEv isDelEv ((m l).2) = countEv isDelEv l

theorem countDel_append_single (l : Log) (e : CallEv) (h : isDelEv e = false) :
    countEv isDelEv (l ++ [e]) = countEv isDelEv l := by
  rw [countEv_append]
  simp [countEv, List.filter_cons, h]

theorem preservesDel_callCreateThread (cb : ClientBehavior) :
    PreservesDel (callCreateThread cb) := fun l =>
  countDel_append_single l _ rfl

theorem preservesDel_callCreateMessage (cb : ClientBehavior) (t c : String) :
    PreservesDel (callCreateMessage cb t c) := fun l =>
  countDel_append_single l _ rfl

theorem preservesDel_callCreateRun (cb : ClientBehavior) (t : String) :
    PreservesDel (callCreateRun cb t) := fun l =>
  countDel_append_single l _ rfl

theorem preservesDel_callRetrieveRun (cb : ClientBehavior) (t r : String) :
    PreservesDel (callRetrieveRun cb t r) := fun l =>
  countDel_append_single l _ rfl

theorem preservesDel_callListMessages (cb : ClientBehavior) (t : String) :
    PreservesDel (callListMessages cb t) := fun l =>
  countDel_append_single l _ rfl

theorem retry_two_eq {α : Type} (op : M α) (n : Nat) (l : Log) :
    retry op (n + 2) l =
      (match op l with
       | (Except.ok v, l1) => (Except.ok v, l1)
       | (Except.error _, l1) => retry op (n + 1) l1) := rfl

theorem preservesDel_retry {α : Type} (op : M α) (h : PreservesDel op) :
    ∀ n, PreservesDel (retry op n)
  | 0 => h
  | 1 => h
  | n + 2 => by
    intro l
    rw [retry_two_eq]
    rcases hop : op l with ⟨r, l1⟩
    have hl1 : countEv isDelEv l1 = countEv isDelEv l := by
      have hx := h l
      rw [hop] at hx
      exact hx
    cases r with
    | ok v => simpa using hl1
    | error e =>
      have hrec := preservesDel_retry op h (n + 1) l1
      dsimp only
      rw [hrec, hl1]

theorem preservesDel_mBind {α β : Type} (x : M α) (f : α → M β)
    (hx : PreservesDel x) (hf : ∀ a, PreservesDel (f a)) :
    PreservesDel (mBind x f) := by
  intro l
  unfold mBind
  rcases hxl : x l with ⟨r, l1⟩
  have h1 : countEv isDelEv l1 = countEv isDelEv l := by
    have hx' := hx l
    rw [hxl] at hx'
    exact hx'
  cases r with
  | ok a =>
    dsimp only
    rw [hf a l1, h1]
  | error e => simpa using h1

theorem preservesDel_mPure {α : Type} (a : α) : PreservesDel (mPure a) := fun _ => rfl

theorem preservesDel_extractFirstText (msgs : List String) :
    PreservesDel (extractFirstText msgs) := by
  intro l
  cases msgs <;> rfl

theorem preservesDel_waitForCompletion (cb : ClientBehavior) (t r : String) :
    ∀ n, PreservesDel (waitForCompletion cb t r n)
  | 0 => fun _ => rfl
  | n + 1 => by
    intro l
    rw [waitForCompletion_succ]
    rcases hr : retry (callRetrieveRun cb t r) 3 l with ⟨res, l1⟩
    have h1 : countEv isDelEv l1 = countEv isDelEv l := by
      have hx := preservesDel_retry _ (preservesDel_callRetrieveRun cb t r) 3 l
      rw [hr] at hx
      exact hx
    cases res with
    | error e => exact h1
    | ok run =>
      show countEv isDelEv
        ((if run.status == "completed" then (Except.ok run, l1)
          else if run.status == "failed" || run.status == "cancelled" || run.status == "expired" then
            (Except.error (runFailureMsg run), l1)
          else if run.status == "queued" || run.status == "in_progress" || run.status == "requires_action" then
            waitForCompletion cb t r n l1
          else (Except.error ("Unknown run status: " ++ run.status), l1)).2) = countEv isDelEv l
      split_ifs with hc hf hq
      · exact h1
      · exact h1
      · rw [preservesDel_waitForCompletion cb t r n l1, h1]
      · exact h1

theorem preservesDel_afterThread (cb : ClientBehavior) (cv jd tid : String) :
    PreservesDel (afterThread cb cv jd tid) := by
  unfold afterThread
  refine preservesDel_mBind _ _ (preservesDel_retry _ (preservesDel_callCreateMessage cb tid _) 3) (fun _ => ?_)
  refine preservesDel_mBind _ _ (preservesDel_retry _ (preservesDel_callCreateRun cb tid) 3) (fun runId => ?_)
  refine preservesDel_mBind _ _ (preservesDel_waitForCompletion cb tid runId 60) (fun _ => ?_)
  refine preservesDel_mBind _ _ (preservesDel_retry _ (preservesDel_callListMessages cb tid) 3) (fun msgs => ?_)
  refine preservesDel_mBind _ _ (preservesDel_extractFirstText msgs) (fun a => ?_)
  exact preservesDel_mPure _

theorem analyzeTry_eq (cb : ClientBehavior) (cv jd : String) (l : Log) :
    analyzeTry cb cv jd l =
      (match retry (callCreateThread cb) 3 l with
       | (Except.error e, l1) => (Except.error e, none, l1)
       | (Except.ok tid, l1) =>
         match afterThread cb cv jd tid l1 with
         | (r, l2) => (r, some tid, l2)) := rfl

theorem analyzeApplication_true_eq (cb : ClientBehavior) (del : Nat → Except Err Unit)
    (cv jd : String) (l : Log) :
    analyzeApplication true cb del cv jd l =
      (match analyzeTry cb cv jd l with
       | (tr, topt, l1) => (Except.ok (catchToResult tr), cleanupThread true del topt l1)) := rfl

theorem cleanupThread_some (del : Nat → Except Err Unit) (tid : String) (l : Log)
    (h : (tid == "") = false) :
    cleanupThread true del (some tid) l = l ++ [CallEv.deleteThread tid] := by
  have hform : cleanupThread true del (some tid) l =
      (if tid == "" then l
       else match del (countEv isDelEv l) with
            | Except.ok _ => l ++ [CallEv.deleteThread tid]
            | Except.error _ => l ++ [CallEv.deleteThread tid]) := rfl
  rw [hform]
  simp only [h, Bool.false_eq_true, if_false]
  rcases del (countEv isDelEv l) with _ | _ <;> rfl

/-- Claim C3: for every conversation context successfully created inside
`analyzeApplication` (a created thread whose handle is truthy), the
deletion operation is invoked on that handle exactly once before
`analyzeApplication` returns, on every exit path (the statement quantifies
over every client behavior, hence over normal returns, thrown steps and
timeouts); if thread creation fails no deletion happens; and the primary
result is unchanged under any change of the deletion behavior — in
particular a throwing deletion is swallowed and never surfaces. -/
theorem analyzeApplication_cleanup_once (cb : ClientBehavior)
    (del del2 : Nat → Except Err Unit) (cv jd : String) (l : Log) :
    (∀ tid l1, retry (callCreateThread cb) 3 l = (Except.ok tid, l1) → tid ≠ "" →
      countEv isDelEv ((analyzeApplication true cb del cv jd l).2) = countEv isDelEv l + 1
      ∧ CallEv.deleteThread tid ∈ (analyzeApplication true cb del cv jd l).2)
    ∧ (∀ e l1, retry (callCreateThread cb) 3 l = (Except.error e, l1) →
        countEv isDelEv ((analyzeApplication true cb del cv jd l).2) = countEv isDelEv l)
    ∧ (analyzeApplication true cb del cv jd l).1 = (analyzeApplication true cb del2 cv jd l).1 := by
  have hretry : ∀ r1 l1, retry (callCreateThread cb) 3 l = (r1, l1) →
      countEv isDelEv l1 = countEv isDelEv l := by
    intro r1 l1 hr
    have hx := preservesDel_retry _ (preservesDel_callCreateThread cb) 3 l
    rw [hr] at hx
    exact hx
  refine ⟨?_, ?_, ?_⟩
  · intro tid l1 h htid
    rcases ha : afterThread cb cv jd tid l1 with ⟨r2, l2⟩
    have hform : analyzeApplication true cb del cv jd l =
        (Except.ok (catchToResult r2), cleanupThread true del (some tid) l2) := by
      rw [analyzeApplication_true_eq, analyzeTry_eq, h]
      dsimp only
      rw [ha]
    have hl2 : countEv isDelEv l2 = countEv isDelEv l := by
      have hx := preservesDel_afterThread cb cv jd tid l1
      rw [ha] at hx
      rw [hx]
      exact hretry _ _ h
    have hclean : cleanupThread true del (some tid) l2 = l2 ++ [CallEv.deleteThread tid] :=
      cleanupThread_some del tid l2 (by simpa using htid)
    rw [hform]
    constructor
    · dsimp only
      rw [hclean, countEv_append, hl2]
      rfl
    · dsimp only
      rw [hclean]
      exact List.mem_append_right _ (List.mem_singleton.mpr rfl)
  · intro e l1 h
    have hform : analyzeApplication true cb del cv jd l =
        (Except.ok (catchToResult (Except.error e)), cleanupThread true del none l1) := by
      rw [analyzeApplication_true_eq, analyzeTry_eq, h]
    rw [hform]
    dsimp only
    rw [show cleanupThread true del none l1 = l1 from rfl]
    exact hretry _ _ h
  · rcases ht : analyzeTry cb cv jd l with ⟨tr, topt, l1⟩
    rw [analyzeApplication_true_eq, analyzeApplication_true_eq, ht]

/-- A client that creates the context successfully and fails everything
afterwards: the error path still deletes the context exactly once. -/
def cbThreadOnly : ClientBehavior :=
  { createThread := fun _ => Except.ok ("t1")
    createMessage := fun _ => Except.error ("down")
    createRun := fun _ => Except.error ("down")
    retrieveRun := fun _ => Except.error ("down")
    listMessages := fun _ => Except.error ("down") }

/-- Witness for C3: concrete run in which the context `t1` is created, the
next step exhausts its retries, and the log still records exactly one
deletion of `t1`; moreover a throwing deletion behavior yields the same
primary result as a succeeding one. -/
theorem analyzeApplication_cleanup_once_witness :
    countEv isDelEv ((analyzeApplication true cbThreadOnly
        (fun _ => Except.error ("delfail")) ("cv") ("jd") []).2) = 1
    ∧ CallEv.deleteThread ("t1") ∈ (analyzeApplication true cbThreadOnly
        (fun _ => Except.error ("delfail")) ("cv") ("jd") []).2
    ∧ (analyzeApplication true cbThreadOnly
        (fun _ => Except.error ("delfail")) ("cv") ("jd") []).1 =
      (analyzeApplication true cbThreadOnly (fun _ => Except.ok ()) ("cv") ("jd") []).1 := by
  have h := analyzeApplication_cleanup_once cbThreadOnly
    (fun _ => Except.error ("delfail")) (fun _ => Except.ok ()) ("cv") ("jd") []
  obtain ⟨h1, h2⟩ := h.1 ("t1") [CallEv.createThread] rfl (by decide)
  exact ⟨by simpa using h1, h2, h.2.2⟩

theorem validate_issues_eq (k o : Option String) :
    (validateOpenAIConfig k o).issues = keyIssuesOf k ++ orgIssuesOf o := rfl

theorem validate_isValid_eq (k o : Option String) :
    (validateOpenAIConfig k o).isValid = (keyIssuesOf k ++ orgIssuesOf o).isEmpty := rfl

theorem isValid_false_of_mem {k o : Option String} {m : String}
    (h : m ∈ (validateOpenAIConfig k o).issues) :
    (validateOpenAIConfig k o).isValid = false := by
  rw [validate_issues_eq] at h
  rw [validate_isValid_eq]
  have hne := List.ne_nil_of_mem h
  simpa [List.isEmpty_iff] using hne

/-- Counterexample to claim C8: an organization id containing quote
characters is not flagged — the quotes are stripped before validation —
so with a well-formed API key and the org id `"org-1234"` (quotes
included in the string) the report is `isValid = true` with no issue,
where the claim requires `isValid = false` with a quote issue listed. -/
theorem validateOpenAIConfig_quotes_counterexample :
    (("\"org-1234\"").data.any (fun c => c == '"')) = true
    ∧ (validateOpenAIConfig (some ("sk-test1234")) (some ("\"org-1234\""))).isValid = true
    ∧ (validateOpenAIConfig (some ("sk-test1234")) (some ("\"org-1234\""))).issues = [] :=
  ⟨rfl, rfl, rfl⟩

/-- Claim C8, amended: `validateOpenAIConfig` is total (it always returns
a report, and `isValid` holds exactly when the issue list is empty).
Quote characters are stripped from both credentials before validation
rather than being flagged, and the embedded-whitespace check tests for the
space character.  After quote-stripping: a missing/falsy credential, a
wrong prefix, or an embedded space each puts its specific issue in the
report and forces `isValid = false`; a well-formed pair yields
`isValid = true`. -/
theorem validateOpenAIConfig_spec (k o : Option String) :
    ((validateOpenAIConfig k o).isValid = true ↔ (validateOpenAIConfig k o).issues = [])
    ∧ (truthy k = false →
        msgKeyMissing ∈ (validateOpenAIConfig k o).issues ∧ (validateOpenAIConfig k o).isValid = false)
    ∧ (truthy o = false →
        msgOrgMissing ∈ (validateOpenAIConfig k o).issues ∧ (validateOpenAIConfig k o).isValid = false)
    ∧ (∀ k0, k = some k0 → truthy k = true →
        strStarts (stripQuotes k0) ("sk-") = false → strStarts (stripQuotes k0) ("proj-") = false →
        msgKeyBadStart ∈ (validateOpenAIConfig k o).issues ∧ (validateOpenAIConfig k o).isValid = false)
    ∧ (∀ k0, k = some k0 → truthy k = true → hasSpace (stripQuotes k0) = true →
        msgKeySpaces ∈ (validateOpenAIConfig k o).issues ∧ (validateOpenAIConfig k o).isValid = false)
    ∧ (∀ o0, o = some o0 → truthy o = true → strStarts (stripQuotes o0) ("org-") = false →
        msgOrgBadStart ∈ (validateOpenAIConfig k o).issues ∧ (validateOpenAIConfig k o).isValid = false)
    ∧ (∀ o0, o = some o0 → truthy o = true → hasSpace (stripQuotes o0) = true →
        msgOrgSpaces ∈ (validateOpenAIConfig k o).issues ∧ (validateOpenAIConfig k o).isValid = false)
    ∧ (∀ k0 o0, k = some k0 → o = some o0 → truthy k = true → truthy o = true →
        (strStarts (stripQuotes k0) ("sk-") = true ∨ strStarts (stripQuotes k0) ("proj-") = true) →
        hasSpace (stripQuotes k0) = false →
        strStarts (stripQuotes o0) ("org-") = true → hasSpace (stripQuotes o0) = false →
        (validateOpenAIConfig k o).isValid = true) := by
  refine ⟨?_, ?_, ?_, ?_, ?_, ?_, ?_, ?_⟩
  · rw [validate_isValid_eq, validate_issues_eq]
    simp [List.isEmpty_iff]
  · intro h
    have hmem : msgKeyMissing ∈ (validateOpenAIConfig k o).issues := by
      rw [validate_issues_eq]
      simp [keyIssuesOf, h]
    exact ⟨hmem, isValid_false_of_mem hmem⟩
  · intro h
    have hmem : msgOrgMissing ∈ (validateOpenAIConfig k o).issues := by
      rw [validate_issues_eq]
      simp [orgIssuesOf, h]
    exact ⟨hmem, isValid_false_of_mem hmem⟩
  · intro k0 hk ht h1 h2
    have hmem : msgKeyBadStart ∈ (validateOpenAIConfig k o).issues := by
      rw [validate_issues_eq]
      subst hk
      simp [keyIssuesOf, ht, h1, h2]
    exact ⟨hmem, isValid_false_of_mem hmem⟩
  · intro k0 hk ht h1
    have hmem : msgKeySpaces ∈ (validateOpenAIConfig k o).issues := by
      rw [validate_issues_eq]
      subst hk
      simp [keyIssuesOf, ht, h1]
    exact ⟨hmem, isValid_false_of_mem hmem⟩
  · intro o0 ho ht h1
    have hmem : msgOrgBadStart ∈ (validateOpenAIConfig k o).issues := by
      rw [validate_issues_eq]
      subst ho
      simp [orgIssuesOf, ht, h1]
    exact ⟨hmem, isValid_false_of_mem hmem⟩
  · intro o0 ho ht h1
    have hmem : msgOrgSpaces ∈ (validateOpenAIConfig k o).issues := by
      rw [validate_issues_eq]
      subst ho
      simp [orgIssuesOf, ht, h1]
    exact ⟨hmem, isValid_false_of_mem hmem⟩
  · intro k0 o0 hk ho htk hto hpre hsp hopre hosp
    subst hk
    subst ho
    rw [validate_isValid_eq]
    have hkey : keyIssuesOf (some k0) = [] := by
      rcases hpre with h | h <;> simp [keyIssuesOf, htk, h, hsp]
    have horg : orgIssuesOf (some o0) = [] := by
      simp [orgIssuesOf, hto, hopre, hosp]
    rw [hkey, horg]
    rfl

/-- Witness for C8's amended theorem: concrete malformed credentials each
produce their specific issue with `isValid = false`; a concrete
well-formed pair validates. -/
theorem validateOpenAIConfig_spec_witness :
    (msgKeyBadStart ∈ (validateOpenAIConfig (some ("ak-xyz")) (some ("org-abcd"))).issues
      ∧ (validateOpenAIConfig (some ("ak-xyz")) (some ("org-abcd"))).isValid = false)
    ∧ (msgKeySpaces ∈ (validateOpenAIConfig (some ("sk-x yz")) (some ("org-abcd"))).issues
      ∧ (validateOpenAIConfig (some ("sk-x yz")) (some ("org-abcd"))).isValid = false)
    ∧ (msgOrgBadStart ∈ (validateOpenAIConfig (some ("sk-xyz")) (some ("xrg-abcd"))).issues
      ∧ (validateOpenAIConfig (some ("sk-xyz")) (some ("xrg-abcd"))).isValid = false)
    ∧ (msgOrgSpaces ∈ (validateOpenAIConfig (some ("sk-xyz")) (some ("org-ab cd"))).issues
      ∧ (validateOpenAIConfig (some ("sk-xyz")) (some ("org-ab cd"))).isValid = false)
    ∧ (msgKeyMissing ∈ (validateOpenAIConfig none (some ("org-abcd"))).issues
      ∧ (validateOpenAIConfig none (some ("org-abcd"))).isValid = false)
    ∧ (validateOpenAIConfig (some ("sk-xyz")) (some ("org-abcd"))).isValid = true := by
  refine ⟨?_, ?_, ?_, ?_, ?_, ?_⟩
  · exact (validateOpenAIConfig_spec (some ("ak-xyz")) (some ("org-abcd"))).2.2.2.1
      ("ak-xyz") rfl rfl (by decide) (by decide)
  · exact (validateOpenAIConfig_spec (some ("sk-x yz")) (some ("org-abcd"))).2.2.2.2.1
      ("sk-x yz") rfl rfl (by decide)
  · exact (validateOpenAIConfig_spec (some ("sk-xyz")) (some ("xrg-abcd"))).2.2.2.2.2.1
      ("xrg-abcd") rfl rfl (by decide)
  · exact (validateOpenAIConfig_spec (some ("sk-xyz")) (some ("org-ab cd"))).2.2.2.2.2.2.1
      ("org-ab cd") rfl rfl (by decide)
  · exact (validateOpenAIConfig_spec none (some ("org-abcd"))).2.1 rfl
  · exact (validateOpenAIConfig_spec (some ("sk-xyz")) (some ("org-abcd"))).2.2.2.2.2.2.2
      ("sk-xyz") ("org-abcd") rfl rfl rfl rfl (Or.inl (by decide)) (by decide) (by decide) (by decide)

/-- Counterexample to claim C6: for an input with no recognized separator
the source returns the empty string as the candidate email — no non-empty
placeholder is substituted. -/
theorem parse_no_separator_counterexample :
    parseAnalysisResponse (some ("hello world")) = ⟨"hello world", ""⟩
    ∧ (parseAnalysisResponse (some ("hello world"))).candidateEmail = "" :=
  ⟨rfl, rfl⟩

/-- Claim C6, amended: for every raw input in which the section separator
does not occur, `parseAnalysisResponse` returns the entire input — with
the scaffold header stripped and the result trimmed — as the recruiter
analysis, and the EMPTY string (not a non-empty placeholder) as the
candidate email. -/
theorem parse_no_separator (s : String) (h : findSplit matchSepAt s.data = none) :
    parseAnalysisResponse (some s) = ⟨⟨trimL (stripHdr s.data)⟩, ""⟩ := by
  by_cases hs : s = ""
  · subst hs
    rfl
  · have hform : parseAnalysisResponse (some s) =
        (if s = "" then ⟨"", ""⟩ else parseCore s) := rfl
    rw [hform, if_neg hs]
    unfold parseCore
    rw [h]

/-- Witness for C6's amended theorem at a concrete separator-free input. -/
theorem parse_no_separator_witness :
    parseAnalysisResponse (some ("just some text")) = ⟨"just some text", ""⟩ := by
  have h := parse_no_separator ("just some text") rfl
  simpa using h

/-! ## First-match characterization lemmas for the score pattern -/

/-- `noScoreHit pre rest` holds when no score-pattern match begins at any
position inside `pre` when the text continues with `rest` (so the leftmost
match of `pre ++ rest`, if any, begins inside `rest`). -/
def noScoreHit : List Char → List Char → Bool
  | [], _ => true
  | c :: cs, rest => (matchScoreAt (c :: (cs ++ rest))).isNone && noScoreHit cs rest

theorem findScore_cons (c : Char) (t : List Char) :
    findScore (c :: t) =
      (match matchScoreAt (c :: t) with
       | some n => some n
       | none => findScore t) := rfl

theorem findScore_append (pre rest : List Char) (h : noScoreHit pre rest = true) :
    findScore (pre ++ rest) = findScore rest := by
  induction pre with
  | nil => rfl
  | cons c cs ih =>
    simp only [noScoreHit, Bool.and_eq_true] at h
    rw [List.cons_append, findScore_cons, Option.isNone_iff_eq_none.mp h.1]
    exact ih h.2

theorem not_ws_of_digit (c : Char) (h : c.isDigit = true) : jsWs c = false := by
  cases hws : jsWs c
  · rfl
  · exfalso
    unfold jsWs at hws
    simp only [Bool.or_eq_true, beq_iff_eq] at hws
    rcases hws with ((((h1 | h1) | h1) | h1) | h1) | h1 <;> subst h1 <;> exact absurd h (by decide)

theorem dropWs_ws_append (w l : List Char) (hw : ∀ c ∈ w, jsWs c = true) :
    dropWs (w ++ l) = dropWs l := by
  induction w with
  | nil => rfl
  | cons c cs ih =>
    have hc := hw c (by simp)
    show List.dropWhile jsWs (c :: (cs ++ l)) = dropWs l
    rw [List.dropWhile_cons, hc]
    exact ih (fun c' hc' => hw c' (by simp [hc']))

theorem takeDigits_all (ds post : List Char) (hd : ∀ c ∈ ds, c.isDigit = true)
    (hpost : ∀ c, post.head? = some c → c.isDigit = false) :
    takeDigits (ds ++ post) = ds := by
  induction ds with
  | nil =>
    cases post with
    | nil => rfl
    | cons c t =>
      show List.takeWhile _ (c :: t) = []
      rw [List.takeWhile_cons]
      simp [hpost c rfl]
  | cons d ds' ih =>
    have hd0 := hd d (by simp)
    show List.takeWhile _ (d :: (ds' ++ post)) = d :: ds'
    rw [List.takeWhile_cons]
    simp only [hd0, if_true]
    rw [show List.takeWhile (fun c => c.isDigit) (ds' ++ post) = takeDigits (ds' ++ post) from rfl]
    rw [ih (fun c hc => hd c (by simp [hc]))]

theorem stripCi_scoreLit (X : List Char) :
    stripCi scoreLit (("Match Score:").data ++ X) = some X := rfl

theorem matchScoreAt_construct (w ds post : List Char)
    (hw : ∀ c ∈ w, jsWs c = true) (hds : ds ≠ []) (hd : ∀ c ∈ ds, c.isDigit = true)
    (hpost : ∀ c, post.head? = some c → c.isDigit = false) :
    matchScoreAt (("Match Score:").data ++ (w ++ (ds ++ post))) = some (digitsToNat ds) := by
  have hform : matchScoreAt (("Match Score:").data ++ (w ++ (ds ++ post))) =
      (if (takeDigits (dropWs (w ++ (ds ++ post)))).isEmpty then none
       else some (digitsToNat (takeDigits (dropWs (w ++ (ds ++ post)))))) := by
    unfold matchScoreAt
    rw [stripCi_scoreLit]
  have h1 : dropWs (w ++ (ds ++ post)) = ds ++ post := by
    rw [dropWs_ws_append w _ hw]
    cases hds' : ds with
    | nil => exact absurd hds' hds
    | cons d t =>
      have hdw : jsWs d = false := not_ws_of_digit d (hd d (by simp [hds']))
      show List.dropWhile jsWs (d :: (t ++ post)) = d :: t ++ post
      rw [List.dropWhile_cons, hdw]
      simp
  rw [hform, h1, takeDigits_all ds post hd hpost]
  simp [List.isEmpty_iff, hds]

theorem findScore_of_matchAt {l : List Char} {n : Nat} (h : matchScoreAt l = some n) :
    findScore l = some n := by
  cases l with
  | nil => simp [matchScoreAt, stripCi, scoreLit] at h
  | cons c t => rw [findScore_cons, h]

/-- Claim C7: `parseMatchScore` always returns a value in [0, 100]; when
the input decomposes as `pre ++ "Match Score:" ++ whitespace ++ digits ++
rest` with the digit run maximal and no earlier match (the first
occurrence of a well-formed pattern with value N), the result is exactly
`min 100 N` — i.e. N itself for N in [0, 100] and the clamp 100 for
N > 100; when no such pattern occurs anywhere the result is 0.  A negative
written score (e.g. `Match Score: -5`) is not matchable by the digit
pattern, so such inputs fall under the no-match case and yield 0, which
equals the claimed clamp of any negative N into [0, 100] (last conjunct). -/
theorem parseMatchScore_spec (s : String) :
    parseMatchScore s ≤ 100
    ∧ (∀ pre w ds post, s.data = pre ++ (("Match Score:").data ++ (w ++ (ds ++ post))) →
        noScoreHit pre (("Match Score:").data ++ (w ++ (ds ++ post))) = true →
        (∀ c ∈ w, jsWs c = true) → ds ≠ [] → (∀ c ∈ ds, c.isDigit = true) →
        (∀ c, post.head? = some c → c.isDigit = false) →
        parseMatchScore s = min 100 (digitsToNat ds))
    ∧ (noScoreHit s.data [] = true → parseMatchScore s = 0)
    ∧ (∀ n : Int, n < 0 → min 100 (max 0 n) = 0) := by
  refine ⟨?_, ?_, ?_, ?_⟩
  · unfold parseMatchScore
    cases findScore s.data with
    | none => exact Nat.zero_le 100
    | some n => exact min_le_left 100 n
  · intro pre w ds post hdecomp hpre hw hds hd hpost
    unfold parseMatchScore
    rw [hdecomp, findScore_append _ _ hpre,
      findScore_of_matchAt (matchScoreAt_construct w ds post hw hds hd hpost)]
  · intro h
    unfold parseMatchScore
    have h0 : findScore (s.data ++ []) = findScore [] := findScore_append _ _ h
    rw [List.append_nil] at h0
    rw [h0]
    rfl
  · intro n hn
    omega

/-- Witness for C7: a first occurrence `Match Score: 0072` inside
surrounding text yields exactly 72; `Match Score: 500` clamps to 100; a
pattern-free input yields 0. -/
theorem parseMatchScore_spec_witness :
    parseMatchScore ("see Match Score: 0072 ok") = 72
    ∧ parseMatchScore ("Match Score: 500") = 100
    ∧ parseMatchScore ("no score here") = 0 := by
  refine ⟨?_, ?_, ?_⟩
  · have h := (parseMatchScore_spec ("see Match Score: 0072 ok")).2.1
      (("see ").data) ([' ']) (['0', '0', '7', '2']) ((" ok").data)
      (by decide) (by decide) (by decide) (by decide) (by decide) (by decide)
    exact h.trans (by decide)
  · have h := (parseMatchScore_spec ("Match Score: 500")).2.1
      ([]) ([' ']) (['5', '0', '0']) ([])
      (by decide) (by decide) (by decide) (by decide) (by decide) (by decide)
    exact h.trans (by decide)
  · exact (parseMatchScore_spec ("no score here")).2.2.1 (by decide)

/-! ## First-match and trim lemmas for the section separator -/

/-- `noHit mAt pre rest` holds when no match of `mAt` begins at any
position inside `pre` when the text continues with `rest`. -/
def noHit (mAt : List Char → Option (List Char)) : List Char → List Char → Bool
  | [], _ => true
  | c :: cs, rest => (mAt (c :: (cs ++ rest))).isNone && noHit mAt cs rest

theorem findSplit_cons (mAt : List Char → Option (List Char)) (c : Char) (t : List Char) :
    findSplit mAt (c :: t) =
      (match mAt (c :: t) with
       | some rem => some ([], rem)
       | none =>
         match findSplit mAt t with
         | some (b, rem) => some (c :: b, rem)
         | none => none) := rfl

theorem findSplit_head {mAt : List Char → Option (List Char)} {l rem : List Char}
    (h : mAt l = some rem) (hne : l ≠ []) : findSplit mAt l = some ([], rem) := by
  cases l with
  | nil => exact absurd rfl hne
  | cons c t => rw [findSplit_cons, h]

theorem findSplit_append (mAt : List Char → Option (List Char)) (pre rest rem : List Char)
    (h : noHit mAt pre rest = true) (hm : mAt rest = some rem) (hne : rest ≠ []) :
    findSplit mAt (pre ++ rest) = some (pre, rem) := by
  induction pre with
  | nil => simpa using findSplit_head hm hne
  | cons c cs ih =>
    simp only [noHit, Bool.and_eq_true] at h
    rw [List.cons_append, findSplit_cons, Option.isNone_iff_eq_none.mp h.1, ih h.2]

theorem dropWhile_all_ws (w : List Char) (hw : ∀ c ∈ w, jsWs c = true) :
    List.dropWhile jsWs w = [] := by
  induction w with
  | nil => rfl
  | cons c cs ih =>
    rw [List.dropWhile_cons, hw c (by simp)]
    exact ih (fun c' hc' => hw c' (by simp [hc']))

theorem length_dropWhile_ws_le (l : List Char) :
    (List.dropWhile jsWs l).length ≤ l.length := by
  induction l with
  | nil => simp
  | cons c cs ih =>
    rw [List.dropWhile_cons]
    by_cases h : jsWs c = true
    · rw [if_pos h]
      simp only [List.length_cons]
      omega
    · rw [if_neg h]

theorem trimL_eq_self (l : List Char) (h : trimL l = l) :
    List.dropWhile jsWs l = l ∧ List.dropWhile jsWs l.reverse = l.reverse := by
  have hlen : l.length ≤ (List.dropWhile jsWs l).length := by
    have h1 : (trimL l).length ≤ (List.dropWhile jsWs l).length := by
      unfold trimL
      simp only [List.length_reverse]
      calc (List.dropWhile jsWs (List.dropWhile jsWs l).reverse).length
          ≤ (List.dropWhile jsWs l).reverse.length := length_dropWhile_ws_le _
        _ = (List.dropWhile jsWs l).length := by simp
    rw [h] at h1
    exact h1
  have hdrop : List.dropWhile jsWs l = l := by
    have hsplit := List.takeWhile_append_dropWhile (p := jsWs) (l := l)
    have hlen2 : (List.takeWhile jsWs l).length + (List.dropWhile jsWs l).length = l.length := by
      rw [← List.length_append, hsplit]
    have htake : List.takeWhile jsWs l = [] := by
      have : (List.takeWhile jsWs l).length = 0 := by omega
      exact List.eq_nil_of_length_eq_zero this
    conv_rhs => rw [← hsplit]
    rw [htake]
    rfl
  refine ⟨hdrop, ?_⟩
  have h2 : trimL l = (List.dropWhile jsWs l.reverse).reverse := by
    unfold trimL
    rw [hdrop]
  rw [h] at h2
  have h3 := congrArg List.reverse h2
  simpa using h3.symm

theorem head_not_ws_of_dropWhile_eq {a : Char} {t : List Char}
    (h : List.dropWhile jsWs (a :: t) = a :: t) : jsWs a = false := by
  cases hja : jsWs a
  · rfl
  · exfalso
    rw [List.dropWhile_cons, hja, if_pos rfl] at h
    have hle := length_dropWhile_ws_le t
    rw [h] at hle
    simp at hle

theorem trim_pad (w1 w2 l : List Char) (hw1 : ∀ c ∈ w1, jsWs c = true)
    (hw2 : ∀ c ∈ w2, jsWs c = true) (h : trimL l = l) :
    trimL (w1 ++ (l ++ w2)) = l := by
  obtain ⟨hd, hrev⟩ := trimL_eq_self l h
  have hform : ∀ x : List Char, trimL x = ((dropWs x).reverse.dropWhile jsWs).reverse := fun _ => rfl
  cases l with
  | nil =>
    rw [hform]
    simp only [List.nil_append]
    rw [show dropWs (w1 ++ w2) = dropWs w2 from dropWs_ws_append w1 w2 hw1]
    rw [show dropWs w2 = List.dropWhile jsWs w2 from rfl, dropWhile_all_ws w2 hw2]
    rfl
  | cons a t =>
    have ha : jsWs a = false := head_not_ws_of_dropWhile_eq hd
    have h1 : dropWs (w1 ++ ((a :: t) ++ w2)) = (a :: t) ++ w2 := by
      rw [dropWs_ws_append w1 _ hw1]
      show List.dropWhile jsWs (a :: (t ++ w2)) = a :: (t ++ w2)
      rw [List.dropWhile_cons, ha, if_neg (by simp)]
    rw [hform, h1, List.reverse_append]
    rw [show List.dropWhile jsWs (w2.reverse ++ (a :: t).reverse) =
        List.dropWhile jsWs (a :: t).reverse from
      dropWs_ws_append w2.reverse _ (fun c hc => hw2 c (List.mem_reverse.mp hc))]
    rw [hrev, List.reverse_reverse]

def hdrStr : String := "1. INTERNAL RECRUITER ANALYSIS:"

def sepStr : String := "2. CANDIDATE FEEDBACK EMAIL:"

theorem matchSepAt_sepStr (X : List Char) : matchSepAt (sepStr.data ++ X) = some X := rfl

theorem matchHdrAt_hdrStr (X : List Char) : matchHdrAt (hdrStr.data ++ X) = some X := rfl

theorem parseCore_two_parts (a : String) (bf af : List Char)
    (h1 : findSplit matchSepAt a.data = some (bf, af))
    (h2 : findSplit matchSepAt af = none) :
    parseCore a = ⟨⟨trimL (stripHdr bf)⟩, ⟨trimL af⟩⟩ := by
  unfold parseCore
  rw [h1]
  dsimp only
  rw [h2]

/-- Claim C9: round-trip.  For a synthetically well-formed two-section
input built from the expected template — the scaffold header, a trimmed
recruiter section `r`, the known separator `2. CANDIDATE FEEDBACK EMAIL:`,
and a trimmed email section `e`, with no spurious separator match — the
parser returns exactly `r` and `e`: re-concatenating the two returned
parts with the known separator reproduces the original section contents
verbatim, modulo the stripped scaffold header and the newline padding
around the separator. -/
theorem parse_roundtrip (r e : String)
    (hr : strTrim r = r) (he : strTrim e = e)
    (hpre : noHit matchSepAt (hdrStr.data ++ (('\n' :: r.data) ++ ['\n']))
        (sepStr.data ++ ('\n' :: e.data)) = true)
    (hafter : findSplit matchSepAt ('\n' :: e.data) = none) :
    parseAnalysisResponse (some (hdrStr ++ "\n" ++ r ++ "\n" ++ sepStr ++ "\n" ++ e)) =
      ⟨r, e⟩ := by
  have hdata : (hdrStr ++ "\n" ++ r ++ "\n" ++ sepStr ++ "\n" ++ e).data =
      (hdrStr.data ++ (('\n' :: r.data) ++ ['\n'])) ++ (sepStr.data ++ ('\n' :: e.data)) := by
    simp [hdrStr, sepStr, List.append_assoc]
  have hsplit : findSplit matchSepAt (hdrStr ++ "\n" ++ r ++ "\n" ++ sepStr ++ "\n" ++ e).data =
      some (hdrStr.data ++ (('\n' :: r.data) ++ ['\n']), '\n' :: e.data) := by
    rw [hdata]
    exact findSplit_append _ _ _ _ hpre (matchSepAt_sepStr _) (by simp [sepStr])
  have hne : (hdrStr ++ "\n" ++ r ++ "\n" ++ sepStr ++ "\n" ++ e) ≠ "" := by
    intro hcon
    have hd := congrArg String.data hcon
    rw [hdata] at hd
    simp [hdrStr] at hd
  have hform : parseAnalysisResponse (some (hdrStr ++ "\n" ++ r ++ "\n" ++ sepStr ++ "\n" ++ e)) =
      (if (hdrStr ++ "\n" ++ r ++ "\n" ++ sepStr ++ "\n" ++ e) = "" then ⟨"", ""⟩
       else parseCore (hdrStr ++ "\n" ++ r ++ "\n" ++ sepStr ++ "\n" ++ e)) := rfl
  rw [hform, if_neg hne,
    parseCore_two_parts _ _ _ hsplit hafter]
  have hhdr : stripHdr (hdrStr.data ++ (('\n' :: r.data) ++ ['\n'])) =
      ('\n' :: r.data) ++ ['\n'] := by
    unfold stripHdr replaceFirst
    rw [findSplit_head (matchHdrAt_hdrStr _) (by simp [hdrStr])]
    rfl
  have htrimr : trimL r.data = r.data := congrArg String.data hr
  have htrime : trimL e.data = e.data := congrArg String.data he
  have htr : trimL (('\n' :: r.data) ++ ['\n']) = r.data := by
    have h := trim_pad ['\n'] ['\n'] r.data (by decide) (by decide) htrimr
    simpa using h
  have hte : trimL ('\n' :: e.data) = e.data := by
    have h := trim_pad ['\n'] [] e.data (by decide) (by decide) htrime
    simpa using h
  rw [hhdr, htr, hte]

/-- Witness for C9: a concrete well-formed two-section synthetic input
round-trips to its exact section contents. -/
theorem parse_roundtrip_witness :
    parseAnalysisResponse (some (hdrStr ++ "\n" ++ "Match Score: 72\nGood candidate." ++ "\n"
        ++ sepStr ++ "\n" ++ "Dear Candidate, thank you.")) =
      ⟨"Match Score: 72\nGood candidate.", "Dear Candidate, thank you."⟩ := by
  exact parse_roundtrip ("Match Score: 72\nGood candidate.") ("Dear Candidate, thank you.")
    (by decide) (by decide) (by decide) (by decide)

end RP
